import Mathlib

/-!
A shallow embedding of the client sign-in/sign-out protocol logic
(src/client.ts) and the server session accessor (src/server.ts) of the
astro-auth repository, together with theorems settling the frozen claims.

Modelling conventions:
* JavaScript JSON values are modelled by the minimal inductive `JVal`
  (null / string / object), which covers every shape the embedded code
  inspects.
* The WHATWG URL constructor is modelled by `urlParse`, a simplified but
  executable parser handling the forms the code relies on: absolute
  http/https URLs, absolute URLs of non-special schemes (origin "null"),
  protocol-relative inputs, and inputs resolved against a base origin.
  `new URL(x)` failing is modelled by `urlParse` returning `none`.
* Network and DOM side effects are reified as an explicit `Event` trace:
  the CSRF GET, the programmatic POST, the form submission, navigation
  and reload, in program order.
* Thrown JavaScript exceptions are modelled by the `.err` outcome carrying
  the error message.
-/

namespace AstroAuth

/-- Minimal JSON value model: null, strings and objects suffice for every
field the embedded code inspects. -/
inductive JVal where
  | jnull
  | jstr (s : String)
  | jobj (fields : List (String × JVal))

/-- First-match association lookup on a JSON object's field list. -/
def jlookup (k : String) : List (String × JVal) → Option JVal
  | [] => none
  | (k1, v) :: rest => if k1 = k then some v else jlookup k rest

/-- JavaScript truthiness for a `JVal`: null is falsy, a string is truthy
iff non-empty, an object is truthy. -/
def jsTruthy : JVal → Bool
  | .jnull => false
  | .jstr s => !(s == "")
  | .jobj _ => true

/-- JavaScript string coercion as applied by the URL constructor. -/
def jsToUrlString : JVal → String
  | .jnull => "null"
  | .jstr s => s
  | .jobj _ => "[object Object]"

/-- Property access `v.k` in JavaScript: reading from null throws a
TypeError, reading a missing field yields undefined (here `none`). -/
def jsGetField (v : JVal) (k : String) : Except String (Option JVal) :=
  match v with
  | .jnull => .error ("Cannot read properties of null (reading " ++ k ++ ")")
  | .jstr _ => .ok none
  | .jobj fields => .ok (jlookup k fields)

/-- `Object.keys(data).length` emptiness test used by the code:
`!data || !Object.keys(data).length`. -/
def jsEmptyData : JVal → Bool
  | .jnull => true
  | .jstr s => s == ""
  | .jobj fields => fields.isEmpty

/-- The message string produced by `new Error(data.message)`. -/
def jsErrMessage : JVal → String
  | .jnull => ""
  | .jstr _ => ""
  | .jobj fields =>
    match jlookup "message" fields with
    | some (.jstr s) => s
    | some .jnull => "null"
    | some (.jobj _) => "[object Object]"
    | none => ""

/-- Insert-or-replace on an association list, keeping position: models both
a JavaScript object literal collecting keys (later duplicate wins) and
also the effect of successive field writes. -/
def upsert (m : List (String × String)) (k v : String) : List (String × String) :=
  match m with
  | [] => [(k, v)]
  | (k1, v1) :: rest => if k1 = k then (k, v) :: rest else (k1, v1) :: upsert rest k v

/-- Fold a list of writes into an object/record, later keys overriding
earlier ones — the semantics of both object-literal spread and of
repeated searchParams.set calls. -/
def objLit (base : List (String × String)) (rest : List (String × String)) :
    List (String × String) :=
  rest.foldl (fun m kv => upsert m kv.1 kv.2) base

/-- Split a character list on a separator, the list analogue of
String.splitOn for single-character separators. -/
def splitChars (sep : Char) : List Char → List (List Char)
  | [] => [[]]
  | c :: rest =>
    match splitChars sep rest with
    | [] => [[c]]
    | g :: gs => if c = sep then [] :: g :: gs else (c :: g) :: gs

/-- Parse one `k=v` component of a query string (no percent-decoding; the
claims never exercise encoded octets). -/
def parseParamPair (cs : List Char) : String × String :=
  match splitChars '=' cs with
  | [] => (String.mk cs, "")
  | [k] => (String.mk k, "")
  | k :: vs => (String.mk k, String.intercalate "=" (vs.map String.mk))

/-- Parse the text of a query string (without the leading question mark)
into the searchParams association list. -/
def parseParams (cs : List Char) : List (String × String) :=
  match cs with
  | [] => []
  | _ => (splitChars '&' cs).map parseParamPair

/-- Serialize a searchParams list back to a search string, with its
leading question mark when non-empty. -/
def searchOf (ps : List (String × String)) : String :=
  match ps with
  | [] => ""
  | _ => "?" ++ String.intercalate "&" (ps.map fun p => p.1 ++ "=" ++ p.2)

/-- Whether a string contains a character — String.prototype.includes for
a single-character needle. -/
def strContains (s : String) (c : Char) : Bool :=
  s.toList.contains c

/-- A parsed special (http/https) URL: origin pieces, pathname, the
searchParams list and the fragment (with its leading hash mark). -/
structure UrlSpecial where
  scheme : String
  host : String
  pathname : String
  params : List (String × String)
  frag : String
deriving DecidableEq, Repr

/-- A parsed URL: either a special http/https URL with an authority, or a
URL of a non-special scheme (mailto:, javascript:, ...), whose origin is
the literal "null". -/
inductive Url where
  | special (u : UrlSpecial)
  | nonspecial (scheme : String) (rest : String)
deriving DecidableEq, Repr

/-- The origin of a parsed URL, as exposed by URL.prototype.origin. -/
def Url.origin : Url → String
  | .special u => u.scheme ++ "://" ++ u.host
  | .nonspecial _ _ => "null"

/-- The serialization URL.prototype.href of a parsed URL. -/
def Url.href : Url → String
  | .special u => u.scheme ++ "://" ++ u.host ++ u.pathname ++ searchOf u.params ++ u.frag
  | .nonspecial sch rest => sch ++ ":" ++ rest

/-- pathname + search, the portion the code uses as a form action and as
the fetch target. -/
def Url.pathSearch : Url → String
  | .special u => u.pathname ++ searchOf u.params
  | .nonspecial _ rest => rest

/-- pathname + search + hash, used by the callback-URL normalizer. -/
def Url.pathSearchHash : Url → String
  | .special u => u.pathname ++ searchOf u.params ++ u.frag
  | .nonspecial _ rest => rest

/-- searchParams.get on a parsed URL. -/
def Url.getParam (u : Url) (k : String) : Option String :=
  match u with
  | .special s => (s.params.find? (fun p => p.1 == k)).map (fun p => p.2)
  | .nonspecial _ _ => none

/-- Apply searchParams.set for each entry of the given list, in order. -/
def Url.setParams (u : Url) (ps : List (String × String)) : Url :=
  match u with
  | .special s => .special { s with params := objLit s.params ps }
  | .nonspecial sch rest => .nonspecial sch rest

/-- Characters at which the authority (host) part of a URL ends. -/
def isHostEnd (c : Char) : Bool :=
  c = '/' || c = '?' || c = '#'

/-- Split off the host from the characters following "//": returns the
host characters and the remaining characters (delimiter kept). -/
def takeHost : List Char → List Char × List Char
  | [] => ([], [])
  | c :: rest =>
    if isHostEnd c then ([], c :: rest)
    else
      match takeHost rest with
      | (h, t) => (c :: h, t)

/-- Split path characters into (pathname, query text, fragment): the
fragment starts at the first hash mark, the query at the first question
mark before it. -/
def splitRest (cs : List Char) : String × List Char × String :=
  match splitChars '#' cs with
  | [] => ("", [], "")
  | before :: fragParts =>
    let frag :=
      match fragParts with
      | [] => ""
      | _ => "#" ++ String.intercalate "#" (fragParts.map String.mk)
    match splitChars '?' before with
    | [] => ("", [], frag)
    | p :: qParts =>
      let q :=
        match qParts with
        | [] => []
        | _ => (String.intercalate "?" (qParts.map String.mk)).toList
      (String.mk p, q, frag)

/-- ASCII lower-casing of one character (schemes are case-insensitive). -/
def asciiLowerChar (c : Char) : Char :=
  if 'A' ≤ c && c ≤ 'Z' then Char.ofNat (c.toNat + 32) else c

/-- ASCII lower-casing of a string. -/
def asciiLower (s : String) : String :=
  String.mk (s.toList.map asciiLowerChar)

/-- Does the string start with a slash character? -/
def startsWithSlash (s : String) : Bool :=
  match s.toList with
  | '/' :: _ => true
  | _ => false

/-- Is this a valid scheme character after the first (RFC 3986)? -/
def isSchemeChar (c : Char) : Bool :=
  c.isAlphanum || c = '+' || c = '-' || c = '.'

/-- Scan for a scheme: consume scheme characters up to a colon; fail if no
colon is reached before a non-scheme character. -/
def schemeScan (acc : List Char) : List Char → Option (String × String)
  | [] => none
  | c :: rest =>
    if c = ':' then some (String.mk acc.reverse, String.mk rest)
    else if isSchemeChar c then schemeScan (c :: acc) rest
    else none

/-- Split an input into scheme and remainder when it begins with one. -/
def schemeSplit (s : String) : Option (String × String) :=
  match s.toList with
  | [] => none
  | c :: rest => if c.isAlpha then schemeScan [c] rest else none

/-- Parse an authority-plus-path remainder (after "//") under a scheme. -/
def parseAfterSlashes (scheme : String) (cs : List Char) : Option Url :=
  match takeHost cs with
  | ([], _) => none
  | (h, tail0) =>
    match splitRest tail0 with
    | (p, q, frag) =>
      some (.special
        { scheme := scheme
          host := String.mk h
          pathname := if p = "" then "/" else p
          params := parseParams q
          frag := frag })

/-- Parse an absolute URL (one carrying its own scheme). Special schemes
require an authority introduced by "//"; any other scheme yields a
non-special URL with origin "null". -/
def parseAbs (input : String) : Option Url :=
  match schemeSplit input with
  | none => none
  | some (sch, rest) =>
    let schl := asciiLower sch
    if schl = "http" || schl = "https" then
      match rest.toList with
      | '/' :: '/' :: r => parseAfterSlashes schl r
      | _ => none
    else
      some (.nonspecial schl rest)

/-- Resolve a relative input against a base URL (in this code the base is
always an origin, whose path is "/"): protocol-relative inputs replace
the host, others contribute path, query and fragment. -/
def parseRel (input : String) (base : UrlSpecial) : Option Url :=
  match input.toList with
  | '/' :: '/' :: r => parseAfterSlashes base.scheme r
  | cs =>
    match splitRest cs with
    | (p, q, frag) =>
      some (.special
        { scheme := base.scheme
          host := base.host
          pathname :=
            if p = "" then base.pathname
            else if startsWithSlash p then p
            else "/" ++ p
          params := parseParams q
          frag := frag })

/-- The model of the WHATWG URL constructor `new URL(input, base?)`:
`none` models the constructor throwing. -/
def urlParse (input : String) (base : Option String) : Option Url :=
  match parseAbs input with
  | some u => some u
  | none =>
    match base with
    | none => none
    | some b =>
      match parseAbs b with
      | some (.special bu) => parseRel input bu
      | _ => none

/-- The browser location: origin, pathname, search and hash of the current
page; href is their concatenation. -/
structure Loc where
  origin : String
  pathname : String
  search : String
  frag : String
deriving DecidableEq, Repr

/-- window.location.href. -/
def Loc.href (l : Loc) : String :=
  l.origin ++ l.pathname ++ l.search ++ l.frag

/-- window.location.pathname + search + hash, the fallback produced by the
callback-URL normalizer. -/
def Loc.pathSearchHash (l : Loc) : String :=
  l.pathname ++ l.search ++ l.frag

/-- An HTTP response as the client code observes it: status, the JSON
parse of the body (`none` when the body is not JSON), whether the fetch
was redirected, and the final response URL. -/
structure HttpResp where
  status : Nat
  jsonBody : Option JVal
  redirected : Bool
  respUrl : String

/-- Response.ok: status in the 2xx range. -/
def HttpResp.ok (r : HttpResp) : Bool :=
  decide (200 ≤ r.status) && decide (r.status ≤ 299)

/-- The csrfToken field read `(json as { csrfToken?: string })?.csrfToken`
followed by the string check of src/client.ts lines 24-25: `some s` only
when the field is a string. -/
def csrfTokenField : JVal → Option String
  | .jobj fields =>
    match jlookup "csrfToken" fields with
    | some (.jstr s) => some s
    | _ => none
  | _ => none

/-- Embeds __getCsrfToken (src/client.ts lines 8-29): a non-ok status, a
non-JSON body, or a missing / non-string / empty csrfToken field each
throw; otherwise the token is returned. -/
def getCsrfToken (resp : HttpResp) : Except String String :=
  if !resp.ok then
    .error ("Failed to fetch CSRF token (" ++ toString resp.status ++ ")")
  else
    match resp.jsonBody with
    | none => .error "CSRF endpoint returned non-JSON response"
    | some j =>
      match csrfTokenField j with
      | none => .error "Missing or invalid CSRF token"
      | some t => if t = "" then .error "Missing or invalid CSRF token" else .ok t

/-- Embeds __normalizePathOnly (src/client.ts lines 31-45): parse relative
to the current origin; on failure or a foreign origin return the current
page's path+search+hash, else the parsed path+search+hash. -/
def normalizePathOnly (href : String) (loc : Loc) : String :=
  match urlParse href (some loc.origin) with
  | none => loc.pathSearchHash
  | some u =>
    if u.origin ≠ loc.origin then loc.pathSearchHash
    else u.pathSearchHash

/-- Embeds __safeRedirect (src/client.ts lines 47-59): falsy targets and
unparsable or cross-origin targets yield the fallback, a same-origin
parse yields its full href. -/
def safeRedirect (target : Option String) (fallbackPathOnly : String) (loc : Loc) : String :=
  match target with
  | none => fallbackPathOnly
  | some t =>
    if t = "" then fallbackPathOnly
    else
      match urlParse t (some loc.origin) with
      | none => fallbackPathOnly
      | some u => if u.origin ≠ loc.origin then fallbackPathOnly else u.href

/-- The observable effects of a client flow, in program order. -/
inductive Event where
  | fetchGet (url : String)
  | fetchPost (url : String) (body : List (String × String))
  | formSubmit (action : String) (fields : List (String × String))
  | navigate (url : String)
  | reload
deriving DecidableEq, Repr

/-- How a client flow finished: a thrown error, an early return of the
Response object, or a normal void return. -/
inductive Outcome where
  | err (msg : String)
  | ret (r : HttpResp)
  | done

/-- The result of running a client flow: its effect trace and outcome. -/
structure RunResult where
  trace : List Event
  outcome : Outcome

/-- The environment a client flow runs in: the current location, the
response of the CSRF endpoint, and the response of the state-changing
POST (unused by the form branch). -/
structure ClientEnv where
  loc : Loc
  csrfResp : HttpResp
  postResp : HttpResp

/-- The sign-in options record (AstroSignInOptions): callbackUrl, redirect
and the route-prefix override (field named prefix in the source), plus
the open-ended bag of extra string-keyed fields that survive the rest
destructuring of src/client.ts line 157. -/
structure SignInOptions where
  callbackUrl : Option String := none
  redirect : Option Bool := none
  basePath : Option String := none
  extra : List (String × String) := []

/-- The sign-out options record (AstroSignOutParams). -/
structure SignOutOptions where
  callbackUrl : Option String := none
  basePath : Option String := none

/-- The endpoint computation of src/client.ts lines 159-165: credentials
posts to callback/{providerId}, everything else to signin/{providerId};
an absent providerId is interpolated as the literal "undefined". -/
def signInUrlOf (providerId : Option String) (basePath : String) : String :=
  if providerId == some "credentials" then
    basePath ++ "/callback/" ++ providerId.getD "undefined"
  else
    basePath ++ "/signin/" ++ providerId.getD "undefined"

/-- The nullish-coalescing candidate of src/client.ts line 259 and 299:
`data.url ?? (res.redirected ? res.url : undefined)`. -/
def nullishCandidate (urlField : Option JVal) (res : HttpResp) : Option String :=
  match urlField with
  | some .jnull => if res.redirected then some res.respUrl else none
  | some v => some (jsToUrlString v)
  | none => if res.redirected then some res.respUrl else none

/-- The error extraction of src/client.ts line 255:
`data.url ? new URL(data.url).searchParams.get('error') : null`; note the
URL is constructed without a base, so a truthy non-absolute url throws. -/
def extractError (urlField : Option JVal) : Except String (Option String) :=
  match urlField with
  | none => .ok none
  | some v =>
    if jsTruthy v then
      match urlParse (jsToUrlString v) none with
      | none => .error "Invalid URL"
      | some pu => .ok (pu.getParam "error")
    else .ok none

/-- Falsiness of the extracted error (`!error` on a string-or-null). -/
def errorFalsy : Option String → Bool
  | none => true
  | some s => s == ""

/-- The normalized callback URL of a flow invocation:
`__normalizePathOnly(options.callbackUrl ?? window.location.href)`. -/
def callbackOf (cb : Option String) (loc : Loc) : String :=
  normalizePathOnly (cb.getD loc.href) loc

/-- The hidden-form field record of the OAuth branch (src/client.ts lines
193-199): the object literal `{ csrfToken, callbackUrl, ...opts }`, whose
trailing spread overrides the leading fields on a key collision. -/
def formFields (csrfToken callbackUrl : String)
    (extra : List (String × String)) : List (String × String) :=
  objLit [("csrfToken", csrfToken), ("callbackUrl", callbackUrl)] extra

/-- The fetch-branch POST body (src/client.ts lines 244-248):
`new URLSearchParams({ ...opts, csrfToken, callbackUrl })`, whose trailing
explicit fields override any identically named option. -/
def fetchBody (extra : List (String × String))
    (csrfToken callbackUrl : String) : List (String × String) :=
  objLit (objLit [] extra) [("csrfToken", csrfToken), ("callbackUrl", callbackUrl)]

/-- The OAuth form branch of signIn (src/client.ts lines 175-212): fetch
the CSRF token, build the action URL with the authorization params, and
submit a hidden form carrying the formFields record. -/
def formBranch (csrfUrl : String) (actionParse : Option Url)
    (ap : List (String × String)) (callbackUrl : String)
    (extra : List (String × String)) (csrfResp : HttpResp) : RunResult :=
  match getCsrfToken csrfResp with
  | .error e => ⟨[.fetchGet csrfUrl], .err e⟩
  | .ok csrfToken =>
    match actionParse with
    | none => ⟨[.fetchGet csrfUrl], .err "Invalid URL"⟩
    | some action0 =>
      ⟨[.fetchGet csrfUrl,
        .formSubmit ((action0.setParams ap).pathSearch)
          (formFields csrfToken callbackUrl extra)], .done⟩

/-- The credentials/email fetch branch of signIn (src/client.ts lines
222-271): compute the target with params (this URL construction precedes
the CSRF fetch in the source), fetch the CSRF token, POST the fetchBody,
inspect the JSON response for a url and an error parameter, then either
navigate (reloading on a truthy hash target) or return the Response. -/
def fetchBranch (csrfUrl : String) (urlParse0 : Option Url)
    (ap : List (String × String)) (callbackUrl : String)
    (extra : List (String × String)) (redirect : Bool)
    (isSupportingReturn : Bool) (loc : Loc)
    (csrfResp postResp : HttpResp) : RunResult :=
  match urlParse0 with
  | none => ⟨[], .err "Invalid URL"⟩
  | some u0 =>
    match getCsrfToken csrfResp with
    | .error e => ⟨[.fetchGet csrfUrl], .err e⟩
    | .ok csrfToken =>
      match jsGetField (postResp.jsonBody.getD (.jobj [])) "url" with
      | .error e =>
        ⟨[.fetchGet csrfUrl,
          .fetchPost ((u0.setParams ap).pathSearch) (fetchBody extra csrfToken callbackUrl)],
         .err e⟩
      | .ok urlField =>
        match extractError urlField with
        | .error e =>
          ⟨[.fetchGet csrfUrl,
            .fetchPost ((u0.setParams ap).pathSearch) (fetchBody extra csrfToken callbackUrl)],
           .err e⟩
        | .ok errorOpt =>
          if redirect || !isSupportingReturn || errorFalsy errorOpt then
            if !(safeRedirect (nullishCandidate urlField postResp) callbackUrl loc == "")
                && strContains (safeRedirect (nullishCandidate urlField postResp) callbackUrl loc) '#' then
              ⟨[.fetchGet csrfUrl,
                .fetchPost ((u0.setParams ap).pathSearch) (fetchBody extra csrfToken callbackUrl),
                .navigate (safeRedirect (nullishCandidate urlField postResp) callbackUrl loc),
                .reload], .done⟩
            else
              ⟨[.fetchGet csrfUrl,
                .fetchPost ((u0.setParams ap).pathSearch) (fetchBody extra csrfToken callbackUrl),
                .navigate (safeRedirect (nullishCandidate urlField postResp) callbackUrl loc)],
               .done⟩
          else
            ⟨[.fetchGet csrfUrl,
              .fetchPost ((u0.setParams ap).pathSearch) (fetchBody extra csrfToken callbackUrl)],
             .ret postResp⟩

/-- Embeds signIn (src/client.ts lines 145-272): resolve callbackUrl,
redirect and the route prefix, classify the provider, and run the form
branch for OAuth-like providers or the fetch branch for the
return-supporting credentials/email providers. The source's local
bindings (callbackUrl, redirect, prefix, signInUrl) are inlined. -/
def signIn (providerId : Option String) (options : SignInOptions)
    (authorizationParams : Option (List (String × String)))
    (env : ClientEnv) : RunResult :=
  if !(providerId == some "credentials" || providerId == some "email") then
    formBranch ((options.basePath.getD "/api/auth") ++ "/csrf")
      (urlParse (signInUrlOf providerId (options.basePath.getD "/api/auth"))
        (some env.loc.origin))
      (authorizationParams.getD [])
      (callbackOf options.callbackUrl env.loc)
      options.extra env.csrfResp
  else
    fetchBranch ((options.basePath.getD "/api/auth") ++ "/csrf")
      (urlParse (signInUrlOf providerId (options.basePath.getD "/api/auth"))
        (some env.loc.origin))
      (authorizationParams.getD [])
      (callbackOf options.callbackUrl env.loc)
      options.extra
      (options.redirect.getD true)
      (providerId == some "credentials" || providerId == some "email")
      env.loc env.csrfResp env.postResp

/-- Embeds signOut (src/client.ts lines 274-307): fetch the CSRF token,
POST csrfToken and the normalized callbackUrl to the signout endpoint,
resolve the returned url safely, navigate, and reload on a hash target. -/
def signOut (options : SignOutOptions) (env : ClientEnv) : RunResult :=
  match getCsrfToken env.csrfResp with
  | .error e => ⟨[.fetchGet ((options.basePath.getD "/api/auth") ++ "/csrf")], .err e⟩
  | .ok csrfToken =>
    match jsGetField (env.postResp.jsonBody.getD (.jobj [])) "url" with
    | .error e =>
      ⟨[.fetchGet ((options.basePath.getD "/api/auth") ++ "/csrf"),
        .fetchPost ((options.basePath.getD "/api/auth") ++ "/signout")
          [("csrfToken", csrfToken),
           ("callbackUrl", callbackOf options.callbackUrl env.loc)]], .err e⟩
    | .ok urlField =>
      if strContains
          (safeRedirect (nullishCandidate urlField env.postResp)
            (callbackOf options.callbackUrl env.loc) env.loc) '#' then
        ⟨[.fetchGet ((options.basePath.getD "/api/auth") ++ "/csrf"),
          .fetchPost ((options.basePath.getD "/api/auth") ++ "/signout")
            [("csrfToken", csrfToken),
             ("callbackUrl", callbackOf options.callbackUrl env.loc)],
          .navigate (safeRedirect (nullishCandidate urlField env.postResp)
            (callbackOf options.callbackUrl env.loc) env.loc),
          .reload], .done⟩
      else
        ⟨[.fetchGet ((options.basePath.getD "/api/auth") ++ "/csrf"),
          .fetchPost ((options.basePath.getD "/api/auth") ++ "/signout")
            [("csrfToken", csrfToken),
             ("callbackUrl", callbackOf options.callbackUrl env.loc)],
          .navigate (safeRedirect (nullishCandidate urlField env.postResp)
            (callbackOf options.callbackUrl env.loc) env.loc)], .done⟩

/-- The header record of the synthetic session request built by getSession
(src/server.ts lines 129-133): always exactly one cookie entry, defaulted
to the empty string when the inbound request carries none. -/
def sessionRequestHeaders (reqCookie : Option String) : List (String × String) :=
  [("cookie", reqCookie.getD "")]

/-- Embeds getSession (src/server.ts lines 114-147), returning the headers
of the synthetic request it sends together with its result: null on an
empty body, the body itself on status 200, otherwise a thrown
`new Error(data.message)`. A non-JSON body makes response.json() reject. -/
def getSession (reqCookie : Option String) (engineResp : HttpResp) :
    List (String × String) × Except String (Option JVal) :=
  (sessionRequestHeaders reqCookie,
    match engineResp.jsonBody with
    | none => .error "Unexpected end of JSON input"
    | some data =>
      if jsEmptyData data then .ok none
      else if engineResp.status = 200 then .ok (some data)
      else .error (jsErrMessage data))

/-- Count of reload events in a trace. -/
def isReload : Event → Bool
  | .reload => true
  | _ => false

/-- Number of reloads a flow triggered. -/
def countReload (t : List Event) : Nat :=
  (t.filter isReload).length

/-- Whether a trace contains a form submission. -/
def hasFormSubmit (t : List Event) : Bool :=
  t.any fun e =>
    match e with
    | .formSubmit _ _ => true
    | _ => false

/-- Whether a trace contains a programmatic POST. -/
def hasFetchPost (t : List Event) : Bool :=
  t.any fun e =>
    match e with
    | .fetchPost _ _ => true
    | _ => false

/-- Whether a trace contains a navigation. -/
def hasNavigate (t : List Event) : Bool :=
  t.any fun e =>
    match e with
    | .navigate _ => true
    | _ => false

/-- The value of a named field in a submitted field record or POST body. -/
def lookupField (m : List (String × String)) (k : String) : Option String :=
  (m.find? (fun p => p.1 == k)).map (fun p => p.2)

/-- Example location: a page at http://localhost/current-page. -/
def locEx : Loc := ⟨"http://localhost", "/current-page", "", ""⟩

/-- Example CSRF response: 200 with body containing csrfToken "tok". -/
def csrfOkResp : HttpResp := ⟨200, some (.jobj [("csrfToken", .jstr "tok")]), false, ""⟩

/-- Example failing CSRF response: HTTP 500. -/
def csrfFailResp : HttpResp := ⟨500, none, false, ""⟩

/-- Example sign-in POST response: 200 with a JSON body carrying a url. -/
def postUrlResp (u : String) : HttpResp := ⟨200, some (.jobj [("url", .jstr u)]), false, ""⟩

/-- Example client environment over locEx. -/
def envWith (c p : HttpResp) : ClientEnv := ⟨locEx, c, p⟩

end AstroAuth

namespace AstroAuth

/-! Helper lemmas about field records. -/

theorem lookupField_upsert_self (m : List (String × String)) (k v : String) :
    lookupField (upsert m k v) k = some v := by
  induction m with
  | nil => simp [upsert, lookupField]
  | cons hd tl ih =>
    by_cases h : hd.1 = k
    · simp [upsert, h, lookupField]
    · simpa [upsert, h, lookupField] using ih

theorem lookupField_upsert_other (m : List (String × String)) (k v k1 : String)
    (h : k1 ≠ k) : lookupField (upsert m k v) k1 = lookupField m k1 := by
  have hne : ¬k = k1 := fun hk => h hk.symm
  induction m with
  | nil => simp [upsert, lookupField, hne]
  | cons hd tl ih =>
    obtain ⟨a, b⟩ := hd
    by_cases hh : a = k
    · subst hh
      simp [upsert, lookupField, hne]
    · by_cases h2 : a = k1
      · subst h2
        simp [upsert, hh, lookupField]
      · simpa [upsert, hh, lookupField, h2] using ih

theorem lookupField_objLit_of_not_mem (rest : List (String × String)) (k : String)
    (h : ∀ kv ∈ rest, kv.1 ≠ k) (base : List (String × String)) :
    lookupField (objLit base rest) k = lookupField base k := by
  induction rest generalizing base with
  | nil => simp [objLit]
  | cons hd tl ih =>
    have hhd : hd.1 ≠ k := h hd (by simp)
    have htl : ∀ kv ∈ tl, kv.1 ≠ k := fun kv hm => h kv (by simp [hm])
    have step : objLit base (hd :: tl) = objLit (upsert base hd.1 hd.2) tl := by
      simp [objLit]
    rw [step, ih htl, lookupField_upsert_other _ _ _ _ (fun hk => hhd hk.symm)]

/-- The fetch-branch body always carries the freshly fetched token: the
explicit csrfToken field comes after the options spread. -/
theorem lookupField_fetchBody (extra : List (String × String)) (tok cb : String) :
    lookupField (fetchBody extra tok cb) "csrfToken" = some tok := by
  show lookupField (objLit (objLit [] extra) [("csrfToken", tok), ("callbackUrl", cb)])
      "csrfToken" = some tok
  have h1 : objLit (objLit [] extra) [("csrfToken", tok), ("callbackUrl", cb)]
      = upsert (upsert (objLit [] extra) "csrfToken" tok) "callbackUrl" cb := by
    simp [objLit]
  rw [h1, lookupField_upsert_other _ _ _ _ (by decide), lookupField_upsert_self]

/-- The form fields carry the freshly fetched token provided no extra
option is itself named csrfToken. -/
theorem lookupField_formFields (extra : List (String × String)) (tok cb : String)
    (h : ∀ kv ∈ extra, kv.1 ≠ "csrfToken") :
    lookupField (formFields tok cb extra) "csrfToken" = some tok := by
  show lookupField (objLit [("csrfToken", tok), ("callbackUrl", cb)] extra)
      "csrfToken" = some tok
  rw [lookupField_objLit_of_not_mem extra _ h]
  simp [lookupField]

/-- Claim C2: the safe-redirect resolver returns the fallback for a falsy
candidate, for an unparsable candidate and for a candidate resolving to a
foreign origin, returns the full resolved URL for a same-origin
candidate, and in every case returns either the fallback or the href of
a same-origin parse — never a cross-origin value. -/
theorem safeRedirect_spec (cand : Option String) (fb : String) (loc : Loc) :
    ((cand = none ∨ cand = some "") → safeRedirect cand fb loc = fb) ∧
    (∀ s, cand = some s → s ≠ "" →
      (urlParse s (some loc.origin) = none → safeRedirect cand fb loc = fb) ∧
      (∀ u, urlParse s (some loc.origin) = some u →
        (u.origin ≠ loc.origin → safeRedirect cand fb loc = fb) ∧
        (u.origin = loc.origin → safeRedirect cand fb loc = u.href))) ∧
    (safeRedirect cand fb loc = fb ∨
      ∃ s u, cand = some s ∧ urlParse s (some loc.origin) = some u ∧
        u.origin = loc.origin ∧ safeRedirect cand fb loc = u.href) := by
  refine ⟨?_, ?_, ?_⟩
  · rintro (rfl | rfl) <;> simp [safeRedirect]
  · rintro s rfl hs
    constructor
    · intro hp
      simp [safeRedirect, hs, hp]
    · intro u hp
      constructor
      · intro ho
        simp [safeRedirect, hs, hp, ho]
      · intro ho
        simp [safeRedirect, hs, hp, ho]
  · cases cand with
    | none => left; simp [safeRedirect]
    | some t =>
      by_cases ht : t = ""
      · left; simp [safeRedirect, ht]
      · cases hp : urlParse t (some loc.origin) with
        | none => left; simp [safeRedirect, ht, hp]
        | some u =>
          by_cases ho : u.origin = loc.origin
          · right; exact ⟨t, u, rfl, hp, ho, by simp [safeRedirect, ht, hp, ho]⟩
          · left; simp [safeRedirect, ht, hp, ho]

/-- Witness for C2: the absolute cross-origin candidate of property P3 is
replaced by the fallback. -/
theorem safeRedirect_spec_witness :
    safeRedirect (some "http://evil.example/x") "/current-page" locEx = "/current-page" :=
  (((safeRedirect_spec (some "http://evil.example/x") "/current-page" locEx).2.1
      "http://evil.example/x" rfl (by decide)).2
    (.special ⟨"http", "evil.example", "/x", [], ""⟩) (by decide)).1 (by decide)

/-- A failing CSRF fetch aborts the form branch after the single GET. -/
theorem formBranch_csrf_error (cu : String) (apr : Option Url)
    (ap : List (String × String)) (cb : String) (ex : List (String × String))
    (cr : HttpResp) (e : String) (hc : getCsrfToken cr = .error e) :
    formBranch cu apr ap cb ex cr = ⟨[.fetchGet cu], .err e⟩ := by
  simp [formBranch, hc]

/-- A failing CSRF fetch aborts the fetch branch after the single GET. -/
theorem fetchBranch_csrf_error (cu : String) (u0 : Url)
    (ap : List (String × String)) (cb : String) (ex : List (String × String))
    (rd isr : Bool) (loc : Loc) (cr pr : HttpResp) (e : String)
    (hc : getCsrfToken cr = .error e) :
    fetchBranch cu (some u0) ap cb ex rd isr loc cr pr = ⟨[.fetchGet cu], .err e⟩ := by
  simp [fetchBranch, hc]

/-- Exhaustive description of the traces the form branch can produce. -/
theorem formBranch_trace_cases (cu : String) (apr : Option Url)
    (ap : List (String × String)) (cb : String) (ex : List (String × String))
    (cr : HttpResp) :
    ((∃ e, getCsrfToken cr = .error e) ∧
      (formBranch cu apr ap cb ex cr).trace = [.fetchGet cu]) ∨
    ((∃ tok, getCsrfToken cr = .ok tok) ∧ apr = none ∧
      (formBranch cu apr ap cb ex cr).trace = [.fetchGet cu]) ∨
    (∃ u0 tok, getCsrfToken cr = .ok tok ∧ apr = some u0 ∧
      formBranch cu apr ap cb ex cr =
        ⟨[.fetchGet cu,
          .formSubmit ((u0.setParams ap).pathSearch) (formFields tok cb ex)], .done⟩) := by
  cases hc : getCsrfToken cr with
  | error e => exact Or.inl ⟨⟨e, rfl⟩, by simp [formBranch, hc]⟩
  | ok tok =>
    cases apr with
    | none => exact Or.inr (Or.inl ⟨⟨tok, rfl⟩, rfl, by simp [formBranch, hc]⟩)
    | some u0 => exact Or.inr (Or.inr ⟨u0, tok, rfl, rfl, by simp [formBranch, hc]⟩)

/-- Exhaustive description of the traces the fetch branch can produce. -/
theorem fetchBranch_trace_cases (cu : String) (up : Option Url)
    (ap : List (String × String)) (cb : String) (ex : List (String × String))
    (rd isr : Bool) (loc : Loc) (cr pr : HttpResp) :
    (up = none ∧ (fetchBranch cu up ap cb ex rd isr loc cr pr).trace = []) ∨
    ((∃ e, getCsrfToken cr = .error e) ∧
      (fetchBranch cu up ap cb ex rd isr loc cr pr).trace = [.fetchGet cu]) ∨
    (∃ u0 tok t, getCsrfToken cr = .ok tok ∧ up = some u0 ∧
      (fetchBranch cu up ap cb ex rd isr loc cr pr).trace
        = .fetchGet cu
          :: .fetchPost ((u0.setParams ap).pathSearch) (fetchBody ex tok cb) :: t ∧
      (t = [] ∨
       (∃ tgt, t = [.navigate tgt] ∧
          (!(tgt == "") && strContains tgt '#') = false) ∨
       (∃ tgt, t = [.navigate tgt, .reload] ∧
          (!(tgt == "") && strContains tgt '#') = true))) := by
  cases up with
  | none => exact Or.inl ⟨rfl, by simp [fetchBranch]⟩
  | some u0 =>
    cases hc : getCsrfToken cr with
    | error e => exact Or.inr (Or.inl ⟨⟨e, rfl⟩, by simp [fetchBranch, hc]⟩)
    | ok tok =>
      refine Or.inr (Or.inr ?_)
      cases hj : jsGetField (pr.jsonBody.getD (.jobj [])) "url" with
      | error e =>
        exact ⟨u0, tok, [], rfl, rfl, by simp [fetchBranch, hc, hj], Or.inl rfl⟩
      | ok urlField =>
        cases he : extractError urlField with
        | error e =>
          exact ⟨u0, tok, [], rfl, rfl, by simp [fetchBranch, hc, hj, he], Or.inl rfl⟩
        | ok errorOpt =>
          cases hcond : (rd || !isr || errorFalsy errorOpt) with
          | false =>
            exact ⟨u0, tok, [], rfl, rfl,
              by simp [fetchBranch, hc, hj, he, hcond], Or.inl rfl⟩
          | true =>
            cases hh : (!(safeRedirect (nullishCandidate urlField pr) cb loc == "")
                && strContains (safeRedirect (nullishCandidate urlField pr) cb loc) '#') with
            | false =>
              exact ⟨u0, tok,
                [.navigate (safeRedirect (nullishCandidate urlField pr) cb loc)],
                rfl, rfl, by simp [fetchBranch, hc, hj, he, hcond, hh],
                Or.inr (Or.inl ⟨_, rfl, hh⟩)⟩
            | true =>
              exact ⟨u0, tok,
                [.navigate (safeRedirect (nullishCandidate urlField pr) cb loc), .reload],
                rfl, rfl, by simp [fetchBranch, hc, hj, he, hcond, hh],
                Or.inr (Or.inr ⟨_, rfl, hh⟩)⟩

/-- The fetch branch never submits a form. -/
theorem fetchBranch_no_formSubmit (cu : String) (up : Option Url)
    (ap : List (String × String)) (cb : String) (ex : List (String × String))
    (rd isr : Bool) (loc : Loc) (cr pr : HttpResp) :
    hasFormSubmit (fetchBranch cu up ap cb ex rd isr loc cr pr).trace = false := by
  rcases fetchBranch_trace_cases cu up ap cb ex rd isr loc cr pr with
    ⟨_, h⟩ | ⟨_, h⟩ | ⟨u0, tok, t, _, _, htr, hts⟩
  · rw [h]; rfl
  · rw [h]; rfl
  · rw [htr]
    rcases hts with rfl | ⟨tgt, rfl, _⟩ | ⟨tgt, rfl, _⟩ <;> rfl

/-- The form branch never issues a programmatic POST, never navigates and
never reloads. -/
theorem formBranch_no_fetchPost (cu : String) (apr : Option Url)
    (ap : List (String × String)) (cb : String) (ex : List (String × String))
    (cr : HttpResp) :
    hasFetchPost (formBranch cu apr ap cb ex cr).trace = false ∧
    hasNavigate (formBranch cu apr ap cb ex cr).trace = false ∧
    countReload (formBranch cu apr ap cb ex cr).trace = 0 := by
  rcases formBranch_trace_cases cu apr ap cb ex cr with
    ⟨_, h⟩ | ⟨_, _, h⟩ | ⟨u0, tok, _, _, h⟩
  · rw [h]; exact ⟨rfl, rfl, rfl⟩
  · rw [h]; exact ⟨rfl, rfl, rfl⟩
  · rw [h]; exact ⟨rfl, rfl, rfl⟩

/-- The fetch branch always POSTs once the CSRF fetch succeeded. -/
theorem fetchBranch_posts (cu : String) (u0 : Url)
    (ap : List (String × String)) (cb : String) (ex : List (String × String))
    (rd isr : Bool) (loc : Loc) (cr pr : HttpResp) (tok : String)
    (hc : getCsrfToken cr = .ok tok) :
    Event.fetchPost ((u0.setParams ap).pathSearch) (fetchBody ex tok cb)
      ∈ (fetchBranch cu (some u0) ap cb ex rd isr loc cr pr).trace := by
  rcases fetchBranch_trace_cases cu (some u0) ap cb ex rd isr loc cr pr with
    ⟨h, _⟩ | ⟨⟨e, he⟩, _⟩ | ⟨u1, tok1, t, hc1, hu1, htr, _⟩
  · exact absurd h (by simp)
  · rw [hc] at he; exact absurd he (by simp)
  · rw [hc] at hc1
    obtain rfl : tok1 = tok := by cases hc1; rfl
    obtain rfl : u1 = u0 := by cases hu1; rfl
    rw [htr]
    exact List.mem_cons_of_mem _ (List.mem_cons_self _ _)

/-- The form branch always submits its form once the CSRF fetch succeeded
and the action URL parsed. -/
theorem formBranch_submits (cu : String) (u0 : Url)
    (ap : List (String × String)) (cb : String) (ex : List (String × String))
    (cr : HttpResp) (tok : String) (hc : getCsrfToken cr = .ok tok) :
    Event.formSubmit ((u0.setParams ap).pathSearch) (formFields tok cb ex)
      ∈ (formBranch cu (some u0) ap cb ex cr).trace ∧
    (formBranch cu (some u0) ap cb ex cr).outcome = .done := by
  rcases formBranch_trace_cases cu (some u0) ap cb ex cr with
    ⟨⟨e, he⟩, _⟩ | ⟨_, hn, _⟩ | ⟨u1, tok1, hc1, hu1, hr⟩
  · rw [hc] at he; exact absurd he (by simp)
  · exact absurd hn (by simp)
  · rw [hc] at hc1
    obtain rfl : tok1 = tok := by cases hc1; rfl
    obtain rfl : u1 = u0 := by cases hu1; rfl
    rw [hr]
    exact ⟨List.mem_cons_of_mem _ (List.mem_cons_self _ _), rfl⟩

/-- Claim C1: a credentials provider issues its programmatic POST to the
callback/credentials endpoint and an email provider to the signin/email
endpoint (each with the authorization params applied to the URL) and
neither ever submits a form; every other providerId submits a form to the
signin/providerId endpoint and issues no programmatic POST at all. -/
theorem signIn_provider_branch (pid : Option String) (options : SignInOptions)
    (ap : Option (List (String × String))) (env : ClientEnv) :
    (pid = some "credentials" →
      signInUrlOf pid (options.basePath.getD "/api/auth")
        = (options.basePath.getD "/api/auth") ++ "/callback/" ++ "credentials" ∧
      hasFormSubmit (signIn pid options ap env).trace = false ∧
      ∀ tok u0, getCsrfToken env.csrfResp = .ok tok →
        urlParse (signInUrlOf pid (options.basePath.getD "/api/auth"))
            (some env.loc.origin) = some u0 →
        ∃ body, Event.fetchPost ((u0.setParams (ap.getD [])).pathSearch) body
          ∈ (signIn pid options ap env).trace) ∧
    (pid = some "email" →
      signInUrlOf pid (options.basePath.getD "/api/auth")
        = (options.basePath.getD "/api/auth") ++ "/signin/" ++ "email" ∧
      hasFormSubmit (signIn pid options ap env).trace = false ∧
      ∀ tok u0, getCsrfToken env.csrfResp = .ok tok →
        urlParse (signInUrlOf pid (options.basePath.getD "/api/auth"))
            (some env.loc.origin) = some u0 →
        ∃ body, Event.fetchPost ((u0.setParams (ap.getD [])).pathSearch) body
          ∈ (signIn pid options ap env).trace) ∧
    (pid ≠ some "credentials" → pid ≠ some "email" →
      signInUrlOf pid (options.basePath.getD "/api/auth")
        = (options.basePath.getD "/api/auth") ++ "/signin/" ++ pid.getD "undefined" ∧
      hasFetchPost (signIn pid options ap env).trace = false ∧
      ∀ tok u0, getCsrfToken env.csrfResp = .ok tok →
        urlParse (signInUrlOf pid (options.basePath.getD "/api/auth"))
            (some env.loc.origin) = some u0 →
        ∃ fields, Event.formSubmit ((u0.setParams (ap.getD [])).pathSearch) fields
          ∈ (signIn pid options ap env).trace) := by
  refine ⟨?_, ?_, ?_⟩
  · rintro rfl
    have hs : signIn (some "credentials") options ap env
        = fetchBranch ((options.basePath.getD "/api/auth") ++ "/csrf")
            (urlParse (signInUrlOf (some "credentials")
              (options.basePath.getD "/api/auth")) (some env.loc.origin))
            (ap.getD []) (callbackOf options.callbackUrl env.loc) options.extra
            (options.redirect.getD true)
            (some "credentials" == some "credentials" || some "credentials" == some "email")
            env.loc env.csrfResp env.postResp := by
      unfold signIn; rfl
    refine ⟨rfl, ?_, ?_⟩
    · rw [hs]; exact fetchBranch_no_formSubmit _ _ _ _ _ _ _ _ _ _
    · intro tok u0 hc hu
      refine ⟨fetchBody options.extra tok (callbackOf options.callbackUrl env.loc), ?_⟩
      rw [hs, hu]
      exact fetchBranch_posts _ _ _ _ _ _ _ _ _ _ _ hc
  · rintro rfl
    have hs : signIn (some "email") options ap env
        = fetchBranch ((options.basePath.getD "/api/auth") ++ "/csrf")
            (urlParse (signInUrlOf (some "email")
              (options.basePath.getD "/api/auth")) (some env.loc.origin))
            (ap.getD []) (callbackOf options.callbackUrl env.loc) options.extra
            (options.redirect.getD true)
            (some "email" == some "credentials" || some "email" == some "email")
            env.loc env.csrfResp env.postResp := by
      unfold signIn; rfl
    refine ⟨rfl, ?_, ?_⟩
    · rw [hs]; exact fetchBranch_no_formSubmit _ _ _ _ _ _ _ _ _ _
    · intro tok u0 hc hu
      refine ⟨fetchBody options.extra tok (callbackOf options.callbackUrl env.loc), ?_⟩
      rw [hs, hu]
      exact fetchBranch_posts _ _ _ _ _ _ _ _ _ _ _ hc
  · intro h1 h2
    have hb1 : (pid == some "credentials") = false := beq_eq_false_iff_ne.mpr h1
    have hb2 : (pid == some "email") = false := beq_eq_false_iff_ne.mpr h2
    have hs : signIn pid options ap env
        = formBranch ((options.basePath.getD "/api/auth") ++ "/csrf")
            (urlParse (signInUrlOf pid (options.basePath.getD "/api/auth"))
              (some env.loc.origin))
            (ap.getD []) (callbackOf options.callbackUrl env.loc)
            options.extra env.csrfResp := by
      unfold signIn
      rw [hb1, hb2]
      rfl
    refine ⟨?_, ?_, ?_⟩
    · unfold signInUrlOf
      rw [hb1]
      rfl
    · rw [hs]; exact (formBranch_no_fetchPost _ _ _ _ _ _).1
    · intro tok u0 hc hu
      refine ⟨formFields tok (callbackOf options.callbackUrl env.loc) options.extra, ?_⟩
      rw [hs, hu]
      exact (formBranch_submits _ _ _ _ _ _ _ hc).1

/-- Witness for C1: a concrete credentials invocation POSTs to the
callback endpoint without a form, and a concrete github invocation
submits a form without a POST. -/
theorem signIn_provider_branch_witness :
    (hasFormSubmit (signIn (some "credentials") {} none
        (envWith csrfOkResp (postUrlResp "http://localhost/dashboard"))).trace = false ∧
      ∃ body, Event.fetchPost
        (((Url.special ⟨"http", "localhost", "/api/auth/callback/credentials", [], ""⟩).setParams
            []).pathSearch) body
        ∈ (signIn (some "credentials") {} none
            (envWith csrfOkResp (postUrlResp "http://localhost/dashboard"))).trace) ∧
    (hasFetchPost (signIn (some "github") {} none
        (envWith csrfOkResp (postUrlResp "http://localhost/dashboard"))).trace = false ∧
      ∃ fields, Event.formSubmit
        (((Url.special ⟨"http", "localhost", "/api/auth/signin/github", [], ""⟩).setParams
            []).pathSearch) fields
        ∈ (signIn (some "github") {} none
            (envWith csrfOkResp (postUrlResp "http://localhost/dashboard"))).trace) := by
  constructor
  · have h := (signIn_provider_branch (some "credentials") {} none
      (envWith csrfOkResp (postUrlResp "http://localhost/dashboard"))).1 rfl
    exact ⟨h.2.1, h.2.2 "tok" _ rfl (by decide)⟩
  · have h := (signIn_provider_branch (some "github") {} none
      (envWith csrfOkResp (postUrlResp "http://localhost/dashboard"))).2.2
      (by decide) (by decide)
    exact ⟨h.2.1, h.2.2 "tok" _ rfl (by decide)⟩

/-- Claim C5: when the CSRF endpoint fails (non-success status, non-JSON
body, or missing/empty token — exactly the cases in which getCsrfToken
errors), both signIn and signOut reject with that CSRF error, and their
traces contain no navigation, no form submission and no POST. -/
theorem csrf_failure_propagation (pid : Option String) (options : SignInOptions)
    (ap : Option (List (String × String))) (env : ClientEnv) (e : String)
    (hc : getCsrfToken env.csrfResp = .error e)
    (hp : (urlParse (signInUrlOf pid (options.basePath.getD "/api/auth"))
      (some env.loc.origin)).isSome) :
    ((signIn pid options ap env).outcome = .err e ∧
     hasNavigate (signIn pid options ap env).trace = false ∧
     hasFormSubmit (signIn pid options ap env).trace = false ∧
     hasFetchPost (signIn pid options ap env).trace = false) ∧
    (∀ (so : SignOutOptions) (senv : ClientEnv) (e2 : String),
      getCsrfToken senv.csrfResp = .error e2 →
      (signOut so senv).outcome = .err e2 ∧
      hasNavigate (signOut so senv).trace = false ∧
      hasFetchPost (signOut so senv).trace = false) := by
  constructor
  · have hrun : signIn pid options ap env
        = ⟨[.fetchGet ((options.basePath.getD "/api/auth") ++ "/csrf")], .err e⟩ := by
      unfold signIn
      split
      · exact formBranch_csrf_error _ _ _ _ _ _ _ hc
      · rcases Option.isSome_iff_exists.mp hp with ⟨u0, hu⟩
        rw [hu]
        exact fetchBranch_csrf_error _ _ _ _ _ _ _ _ _ _ _ hc
    rw [hrun]
    exact ⟨rfl, rfl, rfl, rfl⟩
  · intro so senv e2 hc2
    have hrun : signOut so senv
        = ⟨[.fetchGet ((so.basePath.getD "/api/auth") ++ "/csrf")], .err e2⟩ := by
      simp [signOut, hc2]
    rw [hrun]
    exact ⟨rfl, rfl, rfl⟩

/-- Witness for C5: an HTTP 500 from the CSRF endpoint makes both flows
reject with the CSRF error message. -/
theorem csrf_failure_propagation_witness :
    (signIn (some "github") {} none (envWith csrfFailResp (postUrlResp "x"))).outcome
      = .err "Failed to fetch CSRF token (500)" ∧
    (signOut {} (envWith csrfFailResp (postUrlResp "x"))).outcome
      = .err "Failed to fetch CSRF token (500)" := by
  have h := csrf_failure_propagation (some "github") {} none
    (envWith csrfFailResp (postUrlResp "x")) "Failed to fetch CSRF token (500)"
    rfl rfl
  exact ⟨h.1.1, (h.2 {} (envWith csrfFailResp (postUrlResp "x")) _ rfl).1⟩

/-- A false hasFetchPost excludes POST membership. -/
theorem hasFetchPost_false_not_mem (t : List Event) (h : hasFetchPost t = false) :
    ∀ u b, Event.fetchPost u b ∉ t := by
  intro u b hm
  have ht : hasFetchPost t = true := List.any_eq_true.mpr ⟨_, hm, rfl⟩
  rw [h] at ht
  cases ht

/-- A false hasFormSubmit excludes form-submission membership. -/
theorem hasFormSubmit_false_not_mem (t : List Event) (h : hasFormSubmit t = false) :
    ∀ a f, Event.formSubmit a f ∉ t := by
  intro a f hm
  have ht : hasFormSubmit t = true := List.any_eq_true.mpr ⟨_, hm, rfl⟩
  rw [h] at ht
  cases ht

/-- When the extracted error keeps the redirect decision on, the fetch
branch ends in a navigation to the safely resolved target. -/
theorem fetchBranch_navigates (cu : String) (u0 : Url)
    (ap : List (String × String)) (cb : String) (ex : List (String × String))
    (rd isr : Bool) (loc : Loc) (cr pr : HttpResp) (tok : String)
    (urlField : Option JVal) (eo : Option String)
    (hc : getCsrfToken cr = .ok tok)
    (hj : jsGetField (pr.jsonBody.getD (.jobj [])) "url" = .ok urlField)
    (he : extractError urlField = .ok eo)
    (hcond : (rd || !isr || errorFalsy eo) = true) :
    (fetchBranch cu (some u0) ap cb ex rd isr loc cr pr).outcome = .done ∧
    Event.navigate (safeRedirect (nullishCandidate urlField pr) cb loc)
      ∈ (fetchBranch cu (some u0) ap cb ex rd isr loc cr pr).trace := by
  cases hh : (!(safeRedirect (nullishCandidate urlField pr) cb loc == "")
      && strContains (safeRedirect (nullishCandidate urlField pr) cb loc) '#') with
  | false =>
    have hrun : fetchBranch cu (some u0) ap cb ex rd isr loc cr pr
        = ⟨[.fetchGet cu,
            .fetchPost ((u0.setParams ap).pathSearch) (fetchBody ex tok cb),
            .navigate (safeRedirect (nullishCandidate urlField pr) cb loc)], .done⟩ := by
      simp [fetchBranch, hc, hj, he, hcond, hh]
    rw [hrun]
    exact ⟨rfl, by simp⟩
  | true =>
    have hrun : fetchBranch cu (some u0) ap cb ex rd isr loc cr pr
        = ⟨[.fetchGet cu,
            .fetchPost ((u0.setParams ap).pathSearch) (fetchBody ex tok cb),
            .navigate (safeRedirect (nullishCandidate urlField pr) cb loc),
            .reload], .done⟩ := by
      simp [fetchBranch, hc, hj, he, hcond, hh]
    rw [hrun]
    exact ⟨rfl, by simp⟩

/-- When redirect is suppressed and an error was extracted, the fetch
branch returns the Response after the POST, with no navigation. -/
theorem fetchBranch_returns (cu : String) (u0 : Url)
    (ap : List (String × String)) (cb : String) (ex : List (String × String))
    (rd isr : Bool) (loc : Loc) (cr pr : HttpResp) (tok : String)
    (urlField : Option JVal) (eo : Option String)
    (hc : getCsrfToken cr = .ok tok)
    (hj : jsGetField (pr.jsonBody.getD (.jobj [])) "url" = .ok urlField)
    (he : extractError urlField = .ok eo)
    (hcond : (rd || !isr || errorFalsy eo) = false) :
    fetchBranch cu (some u0) ap cb ex rd isr loc cr pr
      = ⟨[.fetchGet cu,
          .fetchPost ((u0.setParams ap).pathSearch) (fetchBody ex tok cb)],
         .ret pr⟩ := by
  simp [fetchBranch, hc, hj, he, hcond]

/-- When the error extraction itself throws, the fetch branch rejects
right after the POST. -/
theorem fetchBranch_extract_throw (cu : String) (u0 : Url)
    (ap : List (String × String)) (cb : String) (ex : List (String × String))
    (rd isr : Bool) (loc : Loc) (cr pr : HttpResp) (tok : String)
    (urlField : Option JVal) (e : String)
    (hc : getCsrfToken cr = .ok tok)
    (hj : jsGetField (pr.jsonBody.getD (.jobj [])) "url" = .ok urlField)
    (he : extractError urlField = .error e) :
    fetchBranch cu (some u0) ap cb ex rd isr loc cr pr
      = ⟨[.fetchGet cu,
          .fetchPost ((u0.setParams ap).pathSearch) (fetchBody ex tok cb)],
         .err e⟩ := by
  simp [fetchBranch, hc, hj, he]

/-- Claim C3 (counterexample): with an extra option literally named
csrfToken, the form branch's trailing spread overrides the freshly
fetched token "tok" with the attacker-chosen value "evil", so the
submitted form does not carry the fresh token. -/
theorem signIn_csrf_fresh_counterexample :
    getCsrfToken csrfOkResp = .ok "tok" ∧
    (signIn (some "github") { extra := [("csrfToken", "evil")] } none
        (envWith csrfOkResp (postUrlResp "x"))).trace
      = [.fetchGet "/api/auth/csrf",
         .formSubmit "/api/auth/signin/github"
           [("csrfToken", "evil"), ("callbackUrl", "/current-page")]] ∧
    ("evil" : String) ≠ "tok" :=
  ⟨rfl, rfl, by decide⟩

/-- Claim C3 (amended): every fetch-branch POST body and every signOut
POST body carries the freshly fetched csrfToken; the form submission
carries it provided the extra option fields do not themselves include a
field named csrfToken (which the trailing spread would let override the
fresh token). -/
theorem signIn_signOut_csrf_included (pid : Option String) (options : SignInOptions)
    (ap : Option (List (String × String))) (env : ClientEnv) (tok : String)
    (hc : getCsrfToken env.csrfResp = .ok tok) :
    (∀ u b, Event.fetchPost u b ∈ (signIn pid options ap env).trace →
      lookupField b "csrfToken" = some tok) ∧
    ((∀ kv ∈ options.extra, kv.1 ≠ "csrfToken") →
      ∀ a f, Event.formSubmit a f ∈ (signIn pid options ap env).trace →
        lookupField f "csrfToken" = some tok) ∧
    (∀ (so : SignOutOptions) (senv : ClientEnv),
      getCsrfToken senv.csrfResp = .ok tok →
      ∀ u b, Event.fetchPost u b ∈ (signOut so senv).trace →
        lookupField b "csrfToken" = some tok) := by
  refine ⟨?_, ?_, ?_⟩
  · intro u b hm
    unfold signIn at hm
    split at hm
    · rcases formBranch_trace_cases ((options.basePath.getD "/api/auth") ++ "/csrf")
          (urlParse (signInUrlOf pid (options.basePath.getD "/api/auth"))
            (some env.loc.origin))
          ((ap.getD [])) (callbackOf options.callbackUrl env.loc)
          options.extra env.csrfResp with
        ⟨_, h⟩ | ⟨_, _, h⟩ | ⟨u0, tok1, _, _, h⟩
      · rw [h] at hm; simp at hm
      · rw [h] at hm; simp at hm
      · rw [h] at hm; simp at hm
    · rcases fetchBranch_trace_cases ((options.basePath.getD "/api/auth") ++ "/csrf")
          (urlParse (signInUrlOf pid (options.basePath.getD "/api/auth"))
            (some env.loc.origin))
          ((ap.getD [])) (callbackOf options.callbackUrl env.loc)
          options.extra (options.redirect.getD true)
          (pid == some "credentials" || pid == some "email")
          env.loc env.csrfResp env.postResp with
        ⟨_, h⟩ | ⟨_, h⟩ | ⟨u0, tok1, t, hc1, _, htr, hts⟩
      · rw [h] at hm; simp at hm
      · rw [h] at hm; simp at hm
      · rw [hc] at hc1
        obtain rfl : tok1 = tok := by cases hc1; rfl
        rw [htr] at hm
        rcases hts with rfl | ⟨tgt, rfl, _⟩ | ⟨tgt, rfl, _⟩ <;>
          · simp at hm
            rw [hm.2]
            exact lookupField_fetchBody _ _ _
  · intro hex a f hm
    unfold signIn at hm
    split at hm
    · rcases formBranch_trace_cases ((options.basePath.getD "/api/auth") ++ "/csrf")
          (urlParse (signInUrlOf pid (options.basePath.getD "/api/auth"))
            (some env.loc.origin))
          ((ap.getD [])) (callbackOf options.callbackUrl env.loc)
          options.extra env.csrfResp with
        ⟨_, h⟩ | ⟨_, _, h⟩ | ⟨u0, tok1, hc1, _, h⟩
      · rw [h] at hm; simp at hm
      · rw [h] at hm; simp at hm
      · rw [hc] at hc1
        obtain rfl : tok1 = tok := by cases hc1; rfl
        rw [h] at hm
        simp at hm
        rw [hm.2]
        exact lookupField_formFields _ _ _ hex
    · exact absurd hm
        (hasFormSubmit_false_not_mem _ (fetchBranch_no_formSubmit _ _ _ _ _ _ _ _ _ _) a f)
  · intro so senv hc2 u b hm
    cases hj : jsGetField (senv.postResp.jsonBody.getD (.jobj [])) "url" with
    | error e =>
      have h : (signOut so senv).trace
          = [.fetchGet ((so.basePath.getD "/api/auth") ++ "/csrf"),
             .fetchPost ((so.basePath.getD "/api/auth") ++ "/signout")
               [("csrfToken", tok),
                ("callbackUrl", callbackOf so.callbackUrl senv.loc)]] := by
        simp [signOut, hc2, hj]
      rw [h] at hm
      simp at hm
      rw [hm.2]
      rfl
    | ok urlField =>
      cases hh : strContains (safeRedirect (nullishCandidate urlField senv.postResp)
          (callbackOf so.callbackUrl senv.loc) senv.loc) '#' with
      | false =>
        have h : (signOut so senv).trace
            = [.fetchGet ((so.basePath.getD "/api/auth") ++ "/csrf"),
               .fetchPost ((so.basePath.getD "/api/auth") ++ "/signout")
                 [("csrfToken", tok),
                  ("callbackUrl", callbackOf so.callbackUrl senv.loc)],
               .navigate (safeRedirect (nullishCandidate urlField senv.postResp)
                 (callbackOf so.callbackUrl senv.loc) senv.loc)] := by
          simp [signOut, hc2, hj, hh]
        rw [h] at hm
        simp at hm
        rw [hm.2]
        rfl
      | true =>
        have h : (signOut so senv).trace
            = [.fetchGet ((so.basePath.getD "/api/auth") ++ "/csrf"),
               .fetchPost ((so.basePath.getD "/api/auth") ++ "/signout")
                 [("csrfToken", tok),
                  ("callbackUrl", callbackOf so.callbackUrl senv.loc)],
               .navigate (safeRedirect (nullishCandidate urlField senv.postResp)
                 (callbackOf so.callbackUrl senv.loc) senv.loc),
               .reload] := by
          simp [signOut, hc2, hj, hh]
        rw [h] at hm
        simp at hm
        rw [hm.2]
        rfl

/-- Witness for the amended C3: a concrete OAuth invocation without a
csrfToken extra option submits a form whose csrfToken field is the
freshly fetched token. -/
theorem signIn_signOut_csrf_included_witness :
    Event.formSubmit "/api/auth/signin/github"
        [("csrfToken", "tok"), ("callbackUrl", "/current-page")]
      ∈ (signIn (some "github") {} none (envWith csrfOkResp (postUrlResp "x"))).trace ∧
    lookupField [("csrfToken", "tok"), ("callbackUrl", "/current-page")] "csrfToken"
      = some "tok" :=
  ⟨by decide,
    (signIn_signOut_csrf_included (some "github") {} none
        (envWith csrfOkResp (postUrlResp "x")) "tok" rfl).2.1
      (by simp) "/api/auth/signin/github" _ (by decide)⟩

/-- Claim C7: across signIn and signOut, whenever a navigation to some
target was initiated, the reload count of the run is one exactly when the
target contains the hash character and zero otherwise; runs without a
navigation never reload. -/
theorem hash_reload_iff (pid : Option String) (options : SignInOptions)
    (ap : Option (List (String × String))) (env : ClientEnv) :
    ((∀ u, Event.navigate u ∈ (signIn pid options ap env).trace →
        countReload (signIn pid options ap env).trace
          = if strContains u '#' then 1 else 0) ∧
      (hasNavigate (signIn pid options ap env).trace = false →
        countReload (signIn pid options ap env).trace = 0)) ∧
    (∀ (so : SignOutOptions) (senv : ClientEnv),
      (∀ u, Event.navigate u ∈ (signOut so senv).trace →
        countReload (signOut so senv).trace
          = if strContains u '#' then 1 else 0) ∧
      (hasNavigate (signOut so senv).trace = false →
        countReload (signOut so senv).trace = 0)) := by
  constructor
  · unfold signIn
    split
    · rcases formBranch_trace_cases ((options.basePath.getD "/api/auth") ++ "/csrf")
          (urlParse (signInUrlOf pid (options.basePath.getD "/api/auth"))
            (some env.loc.origin))
          ((ap.getD [])) (callbackOf options.callbackUrl env.loc)
          options.extra env.csrfResp with
        ⟨_, h⟩ | ⟨_, _, h⟩ | ⟨u0, tok, _, _, h⟩
      · rw [h]
        exact ⟨fun u hm => absurd hm (by simp), fun _ => rfl⟩
      · rw [h]
        exact ⟨fun u hm => absurd hm (by simp), fun _ => rfl⟩
      · rw [h]
        exact ⟨fun u hm => absurd hm (by simp), fun _ => rfl⟩
    · rcases fetchBranch_trace_cases ((options.basePath.getD "/api/auth") ++ "/csrf")
          (urlParse (signInUrlOf pid (options.basePath.getD "/api/auth"))
            (some env.loc.origin))
          ((ap.getD [])) (callbackOf options.callbackUrl env.loc)
          options.extra (options.redirect.getD true)
          (pid == some "credentials" || pid == some "email")
          env.loc env.csrfResp env.postResp with
        ⟨_, h⟩ | ⟨_, h⟩ | ⟨u0, tok, t, _, _, htr, hts⟩
      · rw [h]
        exact ⟨fun u hm => absurd hm (by simp), fun _ => rfl⟩
      · rw [h]
        exact ⟨fun u hm => absurd hm (by simp), fun _ => rfl⟩
      · rw [htr]
        rcases hts with rfl | ⟨tgt, rfl, hcond⟩ | ⟨tgt, rfl, hcond⟩
        · exact ⟨fun u hm => absurd hm (by simp), fun _ => rfl⟩
        · constructor
          · intro u hm
            have hu : u = tgt := by simpa using hm
            rw [hu]
            rcases Bool.and_eq_false_iff.mp hcond with hcond1 | hcond1
            · have he : tgt = "" := by simpa using hcond1
              rw [he]
              rfl
            · rw [hcond1]
              rfl
          · intro hn
            rfl
        · constructor
          · intro u hm
            have hu : u = tgt := by simpa using hm
            rw [hu, (Bool.and_eq_true _ _ |>.mp hcond).2]
            rfl
          · intro hn
            exact absurd hn (by simp [hasNavigate])
  · intro so senv
    cases hc : getCsrfToken senv.csrfResp with
    | error e =>
      have h : signOut so senv
          = ⟨[.fetchGet ((so.basePath.getD "/api/auth") ++ "/csrf")], .err e⟩ := by
        simp [signOut, hc]
      rw [h]
      exact ⟨fun u hm => absurd hm (by simp), fun _ => rfl⟩
    | ok tok =>
      cases hj : jsGetField (senv.postResp.jsonBody.getD (.jobj [])) "url" with
      | error e =>
        have h : (signOut so senv).trace
            = [.fetchGet ((so.basePath.getD "/api/auth") ++ "/csrf"),
               .fetchPost ((so.basePath.getD "/api/auth") ++ "/signout")
                 [("csrfToken", tok),
                  ("callbackUrl", callbackOf so.callbackUrl senv.loc)]] := by
          simp [signOut, hc, hj]
        rw [h]
        exact ⟨fun u hm => absurd hm (by simp), fun _ => rfl⟩
      | ok urlField =>
        cases hh : strContains (safeRedirect (nullishCandidate urlField senv.postResp)
            (callbackOf so.callbackUrl senv.loc) senv.loc) '#' with
        | false =>
          have h : (signOut so senv).trace
              = [.fetchGet ((so.basePath.getD "/api/auth") ++ "/csrf"),
                 .fetchPost ((so.basePath.getD "/api/auth") ++ "/signout")
                   [("csrfToken", tok),
                    ("callbackUrl", callbackOf so.callbackUrl senv.loc)],
                 .navigate (safeRedirect (nullishCandidate urlField senv.postResp)
                   (callbackOf so.callbackUrl senv.loc) senv.loc)] := by
            simp [signOut, hc, hj, hh]
          rw [h]
          constructor
          · intro u hm
            have hu : u = safeRedirect (nullishCandidate urlField senv.postResp)
                (callbackOf so.callbackUrl senv.loc) senv.loc := by simpa using hm
            rw [hu, hh]
            rfl
          · intro hn
            rfl
        | true =>
          have h : (signOut so senv).trace
              = [.fetchGet ((so.basePath.getD "/api/auth") ++ "/csrf"),
                 .fetchPost ((so.basePath.getD "/api/auth") ++ "/signout")
                   [("csrfToken", tok),
                    ("callbackUrl", callbackOf so.callbackUrl senv.loc)],
                 .navigate (safeRedirect (nullishCandidate urlField senv.postResp)
                   (callbackOf so.callbackUrl senv.loc) senv.loc),
                 .reload] := by
            simp [signOut, hc, hj, hh]
          rw [h]
          constructor
          · intro u hm
            have hu : u = safeRedirect (nullishCandidate urlField senv.postResp)
                (callbackOf so.callbackUrl senv.loc) senv.loc := by simpa using hm
            rw [hu, hh]
            rfl
          · intro hn
            exact absurd hn (by simp [hasNavigate])

/-- Witness for C7: a signOut landing on a hash target reloads exactly
once; one landing on a plain target never reloads. -/
theorem hash_reload_iff_witness :
    countReload (signOut {} (envWith csrfOkResp
        (postUrlResp "http://localhost/d#tab"))).trace = 1 ∧
    countReload (signOut {} (envWith csrfOkResp
        (postUrlResp "http://localhost/dashboard"))).trace = 0 := by
  constructor
  · have h := ((hash_reload_iff (some "github") {} none
      (envWith csrfOkResp (postUrlResp "x"))).2 {}
      (envWith csrfOkResp (postUrlResp "http://localhost/d#tab"))).1
      "http://localhost/d#tab" (by decide)
    exact h.trans (by decide)
  · have h := ((hash_reload_iff (some "github") {} none
      (envWith csrfOkResp (postUrlResp "x"))).2 {}
      (envWith csrfOkResp (postUrlResp "http://localhost/dashboard"))).1
      "http://localhost/dashboard" (by decide)
    exact h.trans (by decide)

/-- Claim C6: for a credentials/email provider with redirect explicitly
false, a backend url carrying a non-empty error query parameter makes
signIn return the raw Response without navigating, while a backend url
carrying no error parameter still navigates to the safely resolved
target and returns nothing. -/
theorem signIn_redirect_suppression (pid : Option String) (options : SignInOptions)
    (ap : Option (List (String × String))) (env : ClientEnv)
    (tok s : String) (fs : List (String × JVal)) (pu u0 : Url)
    (hpid : pid = some "credentials" ∨ pid = some "email")
    (hr : options.redirect = some false)
    (hc : getCsrfToken env.csrfResp = .ok tok)
    (hup : urlParse (signInUrlOf pid (options.basePath.getD "/api/auth"))
      (some env.loc.origin) = some u0)
    (hbody : env.postResp.jsonBody = some (.jobj fs))
    (hurl : jlookup "url" fs = some (.jstr s))
    (hs : s ≠ "")
    (hpu : urlParse s none = some pu) :
    (∀ es, pu.getParam "error" = some es → es ≠ "" →
      (signIn pid options ap env).outcome = .ret env.postResp ∧
      hasNavigate (signIn pid options ap env).trace = false) ∧
    (pu.getParam "error" = none →
      (signIn pid options ap env).outcome = .done ∧
      Event.navigate (safeRedirect (some s) (callbackOf options.callbackUrl env.loc) env.loc)
        ∈ (signIn pid options ap env).trace) := by
  have hsup : (pid == some "credentials" || pid == some "email") = true := by
    rcases hpid with rfl | rfl <;> rfl
  have hfetch : signIn pid options ap env
      = fetchBranch ((options.basePath.getD "/api/auth") ++ "/csrf") (some u0)
          (ap.getD []) (callbackOf options.callbackUrl env.loc) options.extra
          (options.redirect.getD true)
          (pid == some "credentials" || pid == some "email")
          env.loc env.csrfResp env.postResp := by
    unfold signIn
    rw [hsup, hup]
    rfl
  have hj : jsGetField (env.postResp.jsonBody.getD (.jobj [])) "url"
      = .ok (some (.jstr s)) := by
    rw [hbody]
    simp [jsGetField, hurl]
  have hsbeq : (s == "") = false := beq_eq_false_iff_ne.mpr hs
  have he : extractError (some (.jstr s)) = .ok (pu.getParam "error") := by
    simp [extractError, jsTruthy, jsToUrlString, hsbeq, hpu]
  have hrd : options.redirect.getD true = false := by rw [hr]; rfl
  constructor
  · intro es hes hesne
    have hfalsy : errorFalsy (some es) = false := beq_eq_false_iff_ne.mpr hesne
    have hcond : ((options.redirect.getD true)
        || !(pid == some "credentials" || pid == some "email")
        || errorFalsy (pu.getParam "error")) = false := by
      rw [hrd, hsup, hes, hfalsy]
      rfl
    have hrun := fetchBranch_returns ((options.basePath.getD "/api/auth") ++ "/csrf")
      u0 (ap.getD []) (callbackOf options.callbackUrl env.loc) options.extra
      (options.redirect.getD true) (pid == some "credentials" || pid == some "email")
      env.loc env.csrfResp env.postResp tok (some (.jstr s)) (pu.getParam "error")
      hc hj he hcond
    rw [hfetch, hrun]
    exact ⟨rfl, rfl⟩
  · intro hnone
    have hcond : ((options.redirect.getD true)
        || !(pid == some "credentials" || pid == some "email")
        || errorFalsy (pu.getParam "error")) = true := by
      rw [hrd, hsup, hnone]
      rfl
    have hrun := fetchBranch_navigates ((options.basePath.getD "/api/auth") ++ "/csrf")
      u0 (ap.getD []) (callbackOf options.callbackUrl env.loc) options.extra
      (options.redirect.getD true) (pid == some "credentials" || pid == some "email")
      env.loc env.csrfResp env.postResp tok (some (.jstr s)) (pu.getParam "error")
      hc hj he hcond
    rw [hfetch]
    exact hrun

/-- Witness for C6: with redirect false, a url with error parameter makes
a concrete credentials signIn return the Response without navigating, and
a url without one still navigates. -/
theorem signIn_redirect_suppression_witness :
    ((signIn (some "credentials") { redirect := some false } none
        (envWith csrfOkResp
          (postUrlResp "http://localhost/p?error=CredentialsSignin"))).outcome
      = .ret (postUrlResp "http://localhost/p?error=CredentialsSignin") ∧
     hasNavigate (signIn (some "credentials") { redirect := some false } none
        (envWith csrfOkResp
          (postUrlResp "http://localhost/p?error=CredentialsSignin"))).trace = false) ∧
    ((signIn (some "credentials") { redirect := some false } none
        (envWith csrfOkResp (postUrlResp "http://localhost/dashboard"))).outcome
      = .done ∧
     Event.navigate (safeRedirect (some "http://localhost/dashboard")
        (callbackOf none locEx) locEx)
      ∈ (signIn (some "credentials") { redirect := some false } none
          (envWith csrfOkResp (postUrlResp "http://localhost/dashboard"))).trace) := by
  constructor
  · exact (signIn_redirect_suppression (some "credentials")
      { redirect := some false } none
      (envWith csrfOkResp (postUrlResp "http://localhost/p?error=CredentialsSignin"))
      "tok" "http://localhost/p?error=CredentialsSignin"
      [("url", .jstr "http://localhost/p?error=CredentialsSignin")]
      (.special ⟨"http", "localhost", "/p", [("error", "CredentialsSignin")], ""⟩)
      (.special ⟨"http", "localhost", "/api/auth/callback/credentials", [], ""⟩)
      (Or.inl rfl) rfl rfl (by decide) rfl rfl (by decide) (by decide)).1
      "CredentialsSignin" (by decide) (by decide)
  · exact (signIn_redirect_suppression (some "credentials")
      { redirect := some false } none
      (envWith csrfOkResp (postUrlResp "http://localhost/dashboard"))
      "tok" "http://localhost/dashboard"
      [("url", .jstr "http://localhost/dashboard")]
      (.special ⟨"http", "localhost", "/dashboard", [], ""⟩)
      (.special ⟨"http", "localhost", "/api/auth/callback/credentials", [], ""⟩)
      (Or.inl rfl) rfl rfl (by decide) rfl rfl (by decide) (by decide)).2
      (by decide)

/-- Claim C9: for a credentials/email provider whose sign-in POST answers
with a JSON body holding a non-empty url that the base-less URL
constructor cannot parse (a relative path), signIn rejects with the URL
TypeError — it neither navigates nor returns the Response. -/
theorem signIn_relative_url_throws (pid : Option String) (options : SignInOptions)
    (ap : Option (List (String × String))) (env : ClientEnv)
    (tok s : String) (fs : List (String × JVal)) (u0 : Url)
    (hpid : pid = some "credentials" ∨ pid = some "email")
    (hc : getCsrfToken env.csrfResp = .ok tok)
    (hup : urlParse (signInUrlOf pid (options.basePath.getD "/api/auth"))
      (some env.loc.origin) = some u0)
    (hbody : env.postResp.jsonBody = some (.jobj fs))
    (hurl : jlookup "url" fs = some (.jstr s))
    (hs : s ≠ "")
    (hrel : urlParse s none = none) :
    (signIn pid options ap env).outcome = .err "Invalid URL" ∧
    hasNavigate (signIn pid options ap env).trace = false ∧
    ∀ r, (signIn pid options ap env).outcome ≠ .ret r := by
  have hsup : (pid == some "credentials" || pid == some "email") = true := by
    rcases hpid with rfl | rfl <;> rfl
  have hfetch : signIn pid options ap env
      = fetchBranch ((options.basePath.getD "/api/auth") ++ "/csrf") (some u0)
          (ap.getD []) (callbackOf options.callbackUrl env.loc) options.extra
          (options.redirect.getD true)
          (pid == some "credentials" || pid == some "email")
          env.loc env.csrfResp env.postResp := by
    unfold signIn
    rw [hsup, hup]
    rfl
  have hj : jsGetField (env.postResp.jsonBody.getD (.jobj [])) "url"
      = .ok (some (.jstr s)) := by
    rw [hbody]
    simp [jsGetField, hurl]
  have hsbeq : (s == "") = false := beq_eq_false_iff_ne.mpr hs
  have he : extractError (some (.jstr s)) = .error "Invalid URL" := by
    simp [extractError, jsTruthy, jsToUrlString, hsbeq, hrel]
  have hrun := fetchBranch_extract_throw ((options.basePath.getD "/api/auth") ++ "/csrf")
    u0 (ap.getD []) (callbackOf options.callbackUrl env.loc) options.extra
    (options.redirect.getD true)
    (pid == some "credentials" || pid == some "email")
    env.loc env.csrfResp env.postResp tok (some (.jstr s)) "Invalid URL"
    hc hj he
  rw [hfetch, hrun]
  exact ⟨rfl, rfl, fun r h => Outcome.noConfusion h⟩

/-- Witness for C9: the relative backend url "/dashboard?error=X" makes a
concrete credentials signIn reject with the URL error. -/
theorem signIn_relative_url_throws_witness :
    (signIn (some "credentials") {} none
        (envWith csrfOkResp (postUrlResp "/dashboard?error=X"))).outcome
      = .err "Invalid URL" :=
  (signIn_relative_url_throws (some "credentials") {} none
    (envWith csrfOkResp (postUrlResp "/dashboard?error=X"))
    "tok" "/dashboard?error=X" [("url", .jstr "/dashboard?error=X")]
    (.special ⟨"http", "localhost", "/api/auth/callback/credentials", [], ""⟩)
    (Or.inl rfl) rfl (by decide) rfl rfl (by decide) rfl).1

/-- Claim C10: an absent providerId is classified as non-return-supporting
and stringified into the endpoint path as the literal "undefined": with
the default route prefix, a form is submitted to
/api/auth/signin/undefined (plus any query params), with no early
rejection. -/
theorem signIn_undefined_provider (options : SignInOptions)
    (ap : Option (List (String × String))) (env : ClientEnv)
    (tok : String) (b : UrlSpecial)
    (hbp : options.basePath = none)
    (hc : getCsrfToken env.csrfResp = .ok tok)
    (hb : parseAbs env.loc.origin = some (.special b)) :
    (∀ bp, signInUrlOf none bp = bp ++ "/signin/" ++ "undefined") ∧
    (signIn none options ap env).outcome = .done ∧
    ∃ fields, Event.formSubmit
        ("/api/auth/signin/undefined" ++ searchOf (objLit [] (ap.getD []))) fields
      ∈ (signIn none options ap env).trace := by
  have hparse : urlParse (signInUrlOf none (options.basePath.getD "/api/auth"))
      (some env.loc.origin)
      = some (.special ⟨b.scheme, b.host, "/api/auth/signin/undefined", [], ""⟩) := by
    rw [hbp]
    show urlParse "/api/auth/signin/undefined" (some env.loc.origin) = _
    unfold urlParse
    rw [show parseAbs "/api/auth/signin/undefined" = none from rfl]
    simp only [hb]
    rfl
  have hform : signIn none options ap env
      = formBranch ((options.basePath.getD "/api/auth") ++ "/csrf")
          (some (.special ⟨b.scheme, b.host, "/api/auth/signin/undefined", [], ""⟩))
          (ap.getD []) (callbackOf options.callbackUrl env.loc)
          options.extra env.csrfResp := by
    unfold signIn
    rw [hparse]
    rfl
  have hsub := formBranch_submits ((options.basePath.getD "/api/auth") ++ "/csrf")
    (.special ⟨b.scheme, b.host, "/api/auth/signin/undefined", [], ""⟩)
    (ap.getD []) (callbackOf options.callbackUrl env.loc)
    options.extra env.csrfResp tok hc
  refine ⟨fun bp => rfl, ?_, ?_⟩
  · rw [hform]
    exact hsub.2
  · refine ⟨formFields tok (callbackOf options.callbackUrl env.loc) options.extra, ?_⟩
    rw [hform]
    exact hsub.1

/-- Witness for C10: the concrete no-provider invocation submits its form
to /api/auth/signin/undefined and finishes normally. -/
theorem signIn_undefined_provider_witness :
    (signIn none {} none (envWith csrfOkResp (postUrlResp "x"))).outcome = .done ∧
    ∃ fields, Event.formSubmit
        ("/api/auth/signin/undefined" ++ searchOf (objLit [] []))
        fields
      ∈ (signIn none {} none (envWith csrfOkResp (postUrlResp "x"))).trace := by
  have h := signIn_undefined_provider {} none (envWith csrfOkResp (postUrlResp "x"))
    "tok" ⟨"http", "localhost", "/", [], ""⟩ rfl rfl rfl
  exact ⟨h.2.1, h.2.2⟩

/-- Claim C8: the synthetic session request of getSession carries exactly
one header, the cookie header, and when the inbound request has no cookie
header that header is still present with the empty string as its value —
the code writes `cookie: ... ?? ''` instead of omitting it, contradicting
the repository's own test ("omits cookie header when none are present",
test/server.test.ts lines 198-217). -/
theorem getSession_cookie_header_empty (engineResp : HttpResp) :
    (getSession none engineResp).1 = [("cookie", "")] ∧
    ∀ c, (getSession (some c) engineResp).1 = [("cookie", c)] :=
  ⟨rfl, fun _ => rfl⟩

/-- Claim C4: on the failing input of the repository's own test (status
500 with body containing message "boom") getSession rejects with the bare
message "boom" — an error containing neither the numeric status nor the
raw payload — and on a 500 response with an empty JSON body it resolves
to null instead of rejecting; the null-on-empty and 200-pass-through
halves of the claim do hold. -/
theorem getSession_error_shape :
    (getSession none ⟨500, some (.jobj [("message", .jstr "boom")]), false, ""⟩).2
      = .error "boom" ∧
    (getSession none ⟨500, some (.jobj []), false, ""⟩).2 = .ok none ∧
    (getSession none ⟨200, some (.jobj []), false, ""⟩).2 = .ok none ∧
    (getSession none
        ⟨200, some (.jobj [("user", .jstr "T"), ("expires", .jstr "2099")]), false, ""⟩).2
      = .ok (some (.jobj [("user", .jstr "T"), ("expires", .jstr "2099")])) :=
  ⟨rfl, rfl, rfl, rfl⟩

end AstroAuth
